import Mathlib

/-!
Verification of the `@prata.ma/vercel-builder` build pipeline (`src/build.ts`).

The development shallowly embeds the pipeline orchestrator `build` from
`src/build.ts` as a pure Lean function over an explicit workspace state:

* the workspace filesystem is an association list from logical path
  (relative to the resolved entry path) to file content;
* external collaborators (the package installer, the nuxt compiler, the
  node-version probe) are represented by the events they contribute to an
  execution trace and, for the compiler, by the files it writes, which are
  taken as inputs of the model;
* fallible steps produce `Except BuildError`.

Helpers imported by `build.ts` from `src/utils.ts` are not part of the
provided sources; where a claim depends on one of them, the definition is
modelled from the specification and documented as such.
-/

set_option autoImplicit false

/-- Association-list lookup, first match wins (mirrors reading a JS object
field / the first matching file on disk). -/
def lookupA {α : Type} : List (String × α) → String → Option α
  | [], _ => none
  | (k, v) :: rest, key => if key = k then some v else lookupA rest key

/-- Keys of an association list. -/
def keys {α : Type} (m : List (String × α)) : List String :=
  m.map Prod.fst

/-- Functional update of an association list: all existing entries for the
key are dropped and the new binding is appended.  This models assignment to
a JS object field (`obj[k] = v`, `Object.assign`) at the precision the
claims need: lookups and key membership, not entry order. -/
def upsert {α : Type} (m : List (String × α)) (k : String) (v : α) : List (String × α) :=
  m.filter (fun kv => kv.1 != k) ++ [(k, v)]

/-- `Object.assign(m, adds)`: fold the new bindings into `m`, later bindings
winning over earlier ones and over `m`. -/
def assign {α : Type} (m adds : List (String × α)) : List (String × α) :=
  adds.foldl (fun acc kv => upsert acc kv.1 kv.2) m

/-- Structural prefix test on character lists (the model's
`String.startsWith`). -/
def chStartsWith : List Char → List Char → Bool
  | _, [] => true
  | [], _ :: _ => false
  | c :: cs, p :: ps => c = p && chStartsWith cs ps

/-- `s` starts with `pre`. -/
def strStarts (s pre : String) : Bool :=
  chStartsWith s.data pre.data

/-- `s` ends with `sfx`. -/
def strEnds (s sfx : String) : Bool :=
  chStartsWith s.data.reverse sfx.data.reverse

/-- Structural split of a character list on a separator character,
preserving empty pieces (the model's `String.splitOn`). -/
def chSplit (sep : Char) : List Char → List (List Char)
  | [] => [[]]
  | c :: cs =>
    if c = sep then [] :: chSplit sep cs
    else
      match chSplit sep cs with
      | [] => [[c]]
      | h :: t => (c :: h) :: t

/-- Split a string into its `/`-separated segments. -/
def slashSegs (s : String) : List String :=
  (chSplit '/' s.data).map (fun l => String.mk l)

/-- Semantic version as a numeric triple, as compared by the `semver`
library's `gte`/`gt` on plain `major.minor.patch` versions (pre-release
tags are out of scope: the versions in the code are plain triples). -/
structure SemVer where
  major : Nat
  minor : Nat
  patch : Nat
deriving DecidableEq, Repr

/-- Strict semver order (lexicographic on the triple). -/
def semverLt (a b : SemVer) : Bool :=
  a.major < b.major ||
    (a.major = b.major && (a.minor < b.minor ||
      (a.minor = b.minor && a.patch < b.patch)))

/-- `semver.gte a b`: `a` is at least `b`. -/
def semverGte (a b : SemVer) : Bool :=
  !(semverLt a b)

/-- `semver.gt a b`: `a` is strictly newer than `b`. -/
def semverGt (a b : SemVer) : Bool :=
  semverLt b a

namespace NodePath

/-- Scan (reversed, index-annotated) characters of a path from the end,
looking for the `/` that terminates the directory part, skipping any
trailing slashes; indices below 1 are never examined.  This mirrors the
loop of Node's `path.posix.dirname`. -/
def scanEnd : List (Nat × Char) → Bool → Option Nat
  | [], _ => none
  | (i, c) :: rest, matched =>
    if i = 0 then none
    else if c = '/' then
      if matched then scanEnd rest matched else some i
    else scanEnd rest false

/-- Node's `path.posix.dirname`: the parent directory of a path. -/
def dirname (p : String) : String :=
  if p = "" then "."
  else
    let hasRoot := strStarts p "/"
    match scanEnd p.data.enum.reverse true with
    | none => if hasRoot then "/" else "."
    | some e => if hasRoot && e = 1 then "//" else ⟨p.data.take e⟩

/-- Segment normalization of Node's `normalizeString`: resolves `.` and
`..` segments and drops empty segments.  The accumulated stack is kept
reversed (head is the most recently pushed segment).  `allowUp` is Node's
`allowAboveRoot` (true for relative paths). -/
def normSegsRev (allowUp : Bool) : List String → List String → List String
  | stk, [] => stk
  | stk, s :: rest =>
    if s = "" || s = "." then normSegsRev allowUp stk rest
    else if s = ".." then
      match stk with
      | top :: stk2 =>
        if top = ".." then
          if allowUp then normSegsRev allowUp (".." :: top :: stk2) rest
          else normSegsRev allowUp (top :: stk2) rest
        else normSegsRev allowUp stk2 rest
      | [] =>
        if allowUp then normSegsRev allowUp [".."] rest
        else normSegsRev allowUp [] rest
    else normSegsRev allowUp (s :: stk) rest

/-- Node's `path.posix.normalize`. -/
def normalize (p : String) : String :=
  if p = "" then "."
  else
    let isAbs := strStarts p "/"
    let trailing := strEnds p "/"
    let segs := (normSegsRev (!isAbs) [] (slashSegs p)).reverse
    let body := String.intercalate "/" segs
    if body = "" then
      if isAbs then "/" else if trailing then "./" else "."
    else
      (if isAbs then "/" else "") ++ body ++ (if trailing then "/" else "")

/-- Node's `path.posix.join` on a list of parts: empty parts are dropped,
the rest are joined with `/` and normalized; joining nothing gives `"."`. -/
def joinList (ps : List String) : String :=
  let joined := String.intercalate "/" (ps.filter (fun s => s != ""))
  if joined = "" then "." else normalize joined

/-- Binary `path.join a b`. -/
def join2 (a b : String) : String :=
  joinList [a, b]

end NodePath

/-- Glob matching of one path segment, structurally recursive on a fuel
bound (every recursive call shrinks pattern + text, so
`ps.length + cs.length + 1` fuel is always enough): `*` matches any run
of characters, `?` one character, everything else is literal (the subset
of glob syntax the builder's patterns use; the glob library's dotfile
exclusion is not modelled, no claim depends on it). -/
def segMatchF : Nat → List Char → List Char → Bool
  | 0, _, _ => false
  | _ + 1, [], [] => true
  | _ + 1, [], _ :: _ => false
  | f + 1, '*' :: ps, [] => segMatchF f ps []
  | f + 1, '*' :: ps, c :: cs =>
    segMatchF f ps (c :: cs) || segMatchF f ('*' :: ps) cs
  | _ + 1, '?' :: _, [] => false
  | f + 1, '?' :: ps, _ :: cs => segMatchF f ps cs
  | _ + 1, _ :: _, [] => false
  | f + 1, p :: ps, c :: cs => p = c && segMatchF f ps cs

/-- Glob matching of one path segment. -/
def segMatch (ps cs : List Char) : Bool :=
  segMatchF (ps.length + cs.length + 1) ps cs

/-- Glob matching on `/`-separated segment lists (same fuel scheme); a
`**` segment matches any number (possibly zero) of path segments. -/
def segsMatchF : Nat → List (List Char) → List (List Char) → Bool
  | 0, _, _ => false
  | _ + 1, [], [] => true
  | _ + 1, [], _ :: _ => false
  | f + 1, p :: ps, [] => p = ['*', '*'] && segsMatchF f ps []
  | f + 1, p :: ps, s :: ss =>
    if p = ['*', '*'] then segsMatchF f ps (s :: ss) || segsMatchF f (p :: ps) ss
    else segMatch p s && segsMatchF f ps ss

/-- Glob matching on `/`-separated segment lists. -/
def segsMatch (ps ss : List (List Char)) : Bool :=
  segsMatchF (ps.length + ss.length + 1) ps ss

/-- Whether glob pattern `pat` matches the relative path `s`. -/
def globMatch (pat s : String) : Bool :=
  segsMatch (chSplit '/' pat.data) (chSplit '/' s.data)

/-- The project's dependency manifest (`package.json`), as the builder uses
it: script names, dependencies and devDependencies (name/version pairs). -/
structure PackageJson where
  name : String := ""
  scripts : List String := []
  dependencies : List (String × String) := []
  devDependencies : List (String × String) := []
deriving DecidableEq, Repr

/-- Content of a file in the modelled workspace or bundle. -/
inductive FileContent where
  /-- a parsable `package.json` -/
  | manifest (pkg : PackageJson)
  /-- a `package.json` that exists but cannot be parsed -/
  | badManifest
  /-- opaque file data -/
  | blob (data : String)
  /-- the launcher stub after placeholder substitution: the framework
  variant suffix, the `__NUXT_CONFIG__` replacement, and the
  `__ENABLE_INTERNAL_SERVER__` boolean -/
  | launcher (variantSfx : String) (configRef : String) (internalServer : Bool)
  /-- the `@vercel/node-bridge` runtime bridge file -/
  | bridge
  /-- a `FileFsRef` by absolute filesystem path -/
  | fsRef (fsPath : String)
deriving DecidableEq, Repr

/-- The workspace filesystem, keyed by path relative to the entry path. -/
abbrev Disk := List (String × FileContent)

/-- Write a file: any existing entry at that path is replaced. -/
def writeDisk (d : Disk) (k : String) (v : FileContent) : Disk :=
  upsert d k v

/-- Write a batch of files in order. -/
def writeAll (d : Disk) (l : List (String × FileContent)) : Disk :=
  l.foldl (fun acc kv => writeDisk acc kv.1 kv.2) d

/-- Delete a file (`fs.unlink`). -/
def removeDisk (d : Disk) (k : String) : Disk :=
  d.filter (fun kv => kv.1 != k)

/-- `config.includeFiles` has TS type `string[] | string | undefined`. -/
inductive IncludeFilesCfg where
  | unset
  | single (s : String)
  | many (l : List String)
deriving DecidableEq, Repr

/-- `Array.isArray(x) ? x : x ? [x] : []` from `build.ts`: a single string
is wrapped in a list unless it is falsy (the empty string). -/
def includeFilesList : IncludeFilesCfg → List String
  | IncludeFilesCfg.unset => []
  | IncludeFilesCfg.single s => if s = "" then [] else [s]
  | IncludeFilesCfg.many l => l

/-- The recognized builder configuration (`NuxtBuilderConfig` in
`build.ts`); `tscOptions` and `buildFiles` only feed external helpers and
are not modelled. -/
structure NuxtBuilderConfig where
  maxDuration : Option Nat := none
  memory : Option Nat := none
  generateStaticRoutes : Bool := false
  includeFiles : IncludeFilesCfg := IncludeFilesCfg.unset
  serverFiles : Option (List String) := none
  internalServer : Option Bool := none
  app : Option String := none
deriving DecidableEq, Repr

/-- `Array.isArray(config.serverFiles) ? config.serverFiles : []`. -/
def serverFilesList (cfg : NuxtBuilderConfig) : List String :=
  cfg.serverFiles.getD []

/-- The fields of the evaluated `nuxt.config.js` that `build.ts` reads
(the evaluation itself is the external `getNuxtConfig`).  `buildDir` and
`srcDir` stand for the configured values already made relative to the
entry path, as `path.relative(entrypointPath, ...)` produces them. -/
structure NuxtConfigFile where
  lambdaName : Option String := none
  serverMiddleware : Bool := false
  dirStatic : Option String := none
  buildPublicPath : Option String := none
  buildDir : Option String := none
  srcDir : Option String := none
deriving DecidableEq, Repr

/-- JS truthiness defaulting for an optional string option
(`x ? x : d`): `none` and the empty string fall back to the default. -/
def truthyD (o : Option String) (d : String) : String :=
  match o with
  | some s => if s = "" then d else s
  | none => d

/-- JS truthiness of an optional environment variable. -/
def envTruthy (o : Option String) : Bool :=
  match o with
  | some s => !(s = "")
  | none => false

/-- Observable steps of one pipeline run, in execution order. -/
inductive Event where
  | prepareStart
  | writeNpmrc
  | installDevStart
  | installDevDone
  | preBuild
  | nuxtBuild
  | nuxtGenerate
  | prunePkg
  | installProdStart
  | installProdDone
  | warnVersion
  | unlinkNpmrc
  | collectArtifacts
  | createLambda
deriving DecidableEq, Repr

/-- The failure modes of the pipeline that the model covers. -/
inductive BuildError where
  | invalidEntrypoint
  | manifestNotFound
  | unsupportedFrameworkVersion (v : SemVer)
deriving DecidableEq, Repr

/-- One routing rule, mirroring the shape of the `Route` objects the
builder emits: a source pattern with either response headers or a rewrite
destination, or a control directive (`handle`). -/
structure Route where
  src : Option String := none
  dest : Option String := none
  handle : Option String := none
  headers : Option (String × String) := none
deriving DecidableEq, Repr

/-- The serverless-function package assembled by `createLambda`. -/
structure LambdaSpec where
  handler : String
  runtime : String
  files : List (String × FileContent)
  environment : List (String × String)
  maxDuration : Option Nat
  memory : Option Nat
deriving DecidableEq, Repr

/-- A value of the `output` record: a function package or a plain file. -/
inductive OutFile where
  | functionPackage (l : LambdaSpec)
  | asset (c : FileContent)
deriving DecidableEq, Repr

/-- Everything `build` hands back on success, together with the
intermediate values the claims talk about (the `lambdas` record, the
merged launcher file set, the resolved working directories). -/
structure RunPayload where
  output : List (String × OutFile)
  routes : List Route
  lambdas : List (String × LambdaSpec)
  launcherFiles : List (String × FileContent)
  entrypointDir : String
  entrypointPath : String
  modulesPath : String
  lambdaName : String
  warnedVersion : Bool
deriving DecidableEq, Repr

deriving instance DecidableEq for Except

/-- The overall outcome of one pipeline run: the result (or the error that
aborted it), the trace of executed steps, and the workspace's final
filesystem state. -/
structure BuildRun where
  result : Except BuildError RunPayload
  trace : List Event
  disk : Disk
deriving DecidableEq, Repr

/-- Modelled from the spec: `validateEntrypoint` lives in `src/utils.ts`,
which is not among the provided sources.  Per spec §4.1 the only failure
mode of the path resolver is a malformed entrypoint, "empty or absolute
when a relative path is required". -/
def validEntrypoint (e : String) : Bool :=
  !(e = "" || strStarts e "/")

/-- Modelled from the spec: `readJSON` lives in `src/utils.ts`, which is
not among the provided sources.  Per spec §4.2 the manifest read "fails
with ManifestNotFound if absent or unparsable"; here reading succeeds
exactly when the workspace holds a parsable `package.json`. -/
def manifestOf (d : Disk) : Option PackageJson :=
  match lookupA d "package.json" with
  | some (FileContent.manifest p) => some p
  | _ => none

/-- Modelled from the spec: `preparePkgForProd` lives in `src/utils.ts`,
which is not among the provided sources.  Per spec §4.2 the prune
"removes all dependencies except one designated core framework
dependency, returning the variant suffix of that dependency as determined
by probing which of several alternative package names (e.g., an
edge-variant vs a full-variant of the same framework) is declared". -/
def preparePkgForProd (pkg : PackageJson) : PackageJson × String :=
  let sfx :=
    if pkg.dependencies.any (fun d => d.1 = "nuxt-edge") ||
        pkg.devDependencies.any (fun d => d.1 = "nuxt-edge") then "-edge"
    else ""
  let core := "nuxt" ++ sfx
  let ver := (lookupA pkg.dependencies core).getD
    ((lookupA pkg.devDependencies core).getD "latest")
  ({ pkg with dependencies := [(core, ver)], devDependencies := [] }, sfx)

/-- Glob `pat` against the files below directory `dir` of the workspace
(`glob(pat, path.join(entrypointPath, dir))`); result keys are relative to
`dir`.  `dir = "."` globs the entry path itself. -/
def globIn (d : Disk) (dir pat : String) : List (String × FileContent) :=
  if dir = "." then
    d.filterMap (fun kv => if globMatch pat kv.1 then some kv else none)
  else
    d.filterMap (fun kv =>
      if strStarts kv.1 (dir ++ "/") then
        let rel := kv.1.drop (dir.length + 1)
        if globMatch pat rel then some (rel, kv.2) else none
      else none)

/-- Modelled from the spec: `globAndPrefix` lives in `src/utils.ts`, which
is not among the provided sources.  Per spec §4.4, `collectAndPrefix`
"globs sourceDir for pattern, and rewrites every matched logical path by
prepending destPrefix"; the rewrite is `path.join` of the destination
onto the matched relative path. -/
def globDest (d : Disk) (dir pat dest : String) : List (String × FileContent) :=
  (globIn d dir pat).map (fun kv => (NodePath.join2 dest kv.1, kv.2))

/-- The minimum supported framework version (`build.ts` line 231). -/
def minNuxtVersion : SemVer := ⟨2, 4, 0⟩

/-- The highest tested framework version (`build.ts` line 234). -/
def maxTestedNuxtVersion : SemVer := ⟨3, 0, 0⟩

/-- All the inputs one pipeline run depends on: the platform invocation
(entrypoint, work path, config), the environment, the downloaded input
file set, the evaluated nuxt configuration, and the outputs of the
external processes (compiler output files, compiled TypeScript files, the
resolved framework version). -/
structure BuildInputs where
  entrypoint : String
  workPath : String
  config : NuxtBuilderConfig := {}
  nuxtConfigFile : NuxtConfigFile := {}
  npmAuthToken : Option String := none
  disk0 : Disk := []
  nuxtBuildOutputs : List (String × FileContent) := []
  nuxtGenerateOutputs : List (String × FileContent) := []
  compiledTypescriptFiles : List (String × FileContent) := []
  nodeRuntime : String := "nodejs14.x"
  nuxtVersion : SemVer
deriving DecidableEq, Repr

/-- `path.dirname(entrypoint)` (`build.ts` line 47). -/
def entrypointDirOf (inp : BuildInputs) : String :=
  NodePath.dirname inp.entrypoint

/-- `path.join(workPath, entrypointDir)` (`build.ts` line 51). -/
def entrypointPathOf (inp : BuildInputs) : String :=
  NodePath.join2 inp.workPath (entrypointDirOf inp)

/-- `nuxtConfigFile.dir && nuxtConfigFile.dir.static`, default `static`. -/
def resolvedStaticDir (inp : BuildInputs) : String :=
  truthyD inp.nuxtConfigFile.dirStatic "static"

/-- Strip one leading slash (the `replace` with an anchored slash). -/
def stripLeadSlash (s : String) : String :=
  if strStarts s "/" then s.drop 1 else s

/-- `(build.publicPath || '/_nuxt/').replace(anchored slash, '')`. -/
def resolvedPublicPath (inp : BuildInputs) : String :=
  stripLeadSlash (truthyD inp.nuxtConfigFile.buildPublicPath "/_nuxt/")

/-- Configured build directory relative to the entry path, default `.nuxt`. -/
def resolvedBuildDir (inp : BuildInputs) : String :=
  truthyD inp.nuxtConfigFile.buildDir ".nuxt"

/-- Configured source directory relative to the entry path, default `.`. -/
def resolvedSrcDir (inp : BuildInputs) : String :=
  truthyD inp.nuxtConfigFile.srcDir "."

/-- `nuxtConfigFile.lambdaName ? nuxtConfigFile.lambdaName : 'index'`
(`build.ts` line 169). -/
def resolvedLambdaName (inp : BuildInputs) : String :=
  truthyD inp.nuxtConfigFile.lambdaName "index"

/-- `config.internalServer !== undefined ? config.internalServer :
!!nuxtConfigFile.serverMiddleware` (`build.ts` line 172). -/
def resolvedInternalServer (inp : BuildInputs) : Bool :=
  inp.config.internalServer.getD inp.nuxtConfigFile.serverMiddleware

/-- The content written to `.npmrc` when the registry token is set
(`build.ts` line 103). -/
def npmrcContent (tok : String) : FileContent :=
  FileContent.blob ("//registry.npmjs.org/:_authToken=" ++ tok)

/-- Workspace after the prepare stage: the downloaded input files, plus
`.npmrc` when `NPM_AUTH_TOKEN` is truthy (`build.ts` lines 101-104). -/
def diskAfterNpmrc (inp : BuildInputs) : Disk :=
  if envTruthy inp.npmAuthToken then
    writeDisk inp.disk0 ".npmrc" (npmrcContent (inp.npmAuthToken.getD ""))
  else inp.disk0

/-- Workspace after the external `nuxt build` has written its output
(`build.ts` line 186). -/
def diskAfterNuxtBuild (inp : BuildInputs) : Disk :=
  writeAll (diskAfterNpmrc inp) inp.nuxtBuildOutputs

/-- Workspace after the conditional `nuxt generate` (`build.ts` line 193). -/
def diskAfterGenerate (inp : BuildInputs) : Disk :=
  if inp.config.generateStaticRoutes then
    writeAll (diskAfterNuxtBuild inp) inp.nuxtGenerateOutputs
  else diskAfterNuxtBuild inp

/-- Workspace after the prune rewrote `package.json` on disk
(`preparePkgForProd` + `fs.writeJSON`, `build.ts` lines 211-212). -/
def diskAfterPrune (inp : BuildInputs) (pkg : PackageJson) : Disk :=
  writeDisk (diskAfterGenerate inp) "package.json"
    (FileContent.manifest (preparePkgForProd pkg).1)

/-- Final workspace: `.npmrc` is unlinked after the production install
when the token was set (`build.ts` lines 239-241). -/
def finalDisk (inp : BuildInputs) (pkg : PackageJson) : Disk :=
  if envTruthy inp.npmAuthToken then removeDisk (diskAfterPrune inp pkg) ".npmrc"
  else diskAfterPrune inp pkg

/-- Trace of the pipeline from the prepare stage through the completion of
the production install, i.e. up to the version validation (`build.ts`
lines 37-227). -/
def preVersionTrace (inp : BuildInputs) (pkg : PackageJson) : List Event :=
  [Event.prepareStart]
  ++ (if envTruthy inp.npmAuthToken then [Event.writeNpmrc] else [])
  ++ [Event.installDevStart, Event.installDevDone]
  ++ (if pkg.scripts.contains "now-build" then [Event.preBuild] else [])
  ++ [Event.nuxtBuild]
  ++ (if inp.config.generateStaticRoutes then [Event.nuxtGenerate] else [])
  ++ [Event.prunePkg, Event.installProdStart, Event.installProdDone]

/-- Trace of a successful run end to end (`build.ts` lines 37-322). -/
def okTrace (inp : BuildInputs) (pkg : PackageJson) : List Event :=
  preVersionTrace inp pkg
  ++ (if semverGt inp.nuxtVersion maxTestedNuxtVersion then [Event.warnVersion] else [])
  ++ (if envTruthy inp.npmAuthToken then [Event.unlinkNpmrc] else [])
  ++ [Event.collectArtifacts, Event.createLambda]

/-- `glob('**', path.join(entrypointPath, srcDir, staticDir))`
(`build.ts` line 247). -/
def staticFilesOf (inp : BuildInputs) (pkg : PackageJson) : List (String × FileContent) :=
  globIn (finalDisk inp pkg) (NodePath.join2 (resolvedSrcDir inp) (resolvedStaticDir inp)) "**"

/-- `globAndPrefix('**', clientDistDir, publicPath)` (`build.ts` line 258). -/
def clientDistFilesOf (inp : BuildInputs) (pkg : PackageJson) : List (String × FileContent) :=
  globDest (finalDisk inp pkg) (NodePath.join2 (resolvedBuildDir inp) "dist/client") "**"
    (resolvedPublicPath inp)

/-- `globAndPrefix('**', serverDistDir, path.join('.nuxt', 'dist/server'))`
(`build.ts` line 264). -/
def serverDistFilesOf (inp : BuildInputs) (pkg : PackageJson) : List (String × FileContent) :=
  globDest (finalDisk inp pkg) (NodePath.join2 (resolvedBuildDir inp) "dist/server") "**"
    (NodePath.join2 ".nuxt" "dist/server")

/-- Conditionally collected generated pages:
`globAndPrefix('**/*.*', generatedDir, './')` (`build.ts` line 269). -/
def generatedPagesFilesOf (inp : BuildInputs) (pkg : PackageJson) : List (String × FileContent) :=
  if inp.config.generateStaticRoutes then
    globDest (finalDisk inp pkg) "dist" "**/*.*" "./"
  else []

/-- `globAndPrefix('**', nodeModulesDir, 'node_modules')` over
`node_modules_prod` (`build.ts` line 273). -/
def nodeModulesOf (inp : BuildInputs) (pkg : PackageJson) : List (String × FileContent) :=
  globDest (finalDisk inp pkg) "node_modules_prod" "**" "node_modules"

/-- The initial launcher file set (`build.ts` lines 284-291): the
substituted launcher stub, the node bridge, the nuxt configuration file,
then the server dist files, compiled TypeScript files and production
`node_modules`, later spreads overriding earlier keys. -/
def launcherBase (inp : BuildInputs) (pkg : PackageJson) : List (String × FileContent) :=
  assign (assign (assign
    [("vercel__launcher.js",
        FileContent.launcher (preparePkgForProd pkg).2 "./nuxt.config.js"
          (resolvedInternalServer inp)),
      ("vercel__bridge.js", FileContent.bridge),
      ("nuxt.config.js",
        FileContent.fsRef (NodePath.join2 (entrypointPathOf inp) "nuxt.config.js"))]
    (serverDistFilesOf inp pkg)) inp.compiledTypescriptFiles) (nodeModulesOf inp pkg)

/-- The extra-file pattern list (`build.ts` lines 296-300): the normalized
`config.includeFiles`, then `config.serverFiles`, then `package.json`
unconditionally. -/
def serverFilesPatterns (cfg : NuxtBuilderConfig) : List String :=
  includeFilesList cfg.includeFiles ++ serverFilesList cfg ++ ["package.json"]

/-- The merged launcher file set (`build.ts` lines 302-305): each pattern
is globbed individually against the entry path and `Object.assign`ed onto
the launcher files. -/
def mergedLauncherFiles (inp : BuildInputs) (pkg : PackageJson) : List (String × FileContent) :=
  (serverFilesPatterns inp.config).foldl
    (fun acc pat => assign acc (globIn (finalDisk inp pkg) "." pat))
    (launcherBase inp pkg)

/-- The function package assembled by `createLambda` (`build.ts` lines
308-318). -/
def mkLambda (inp : BuildInputs) (pkg : PackageJson) : LambdaSpec :=
  { handler := "vercel__launcher.launcher"
    runtime := inp.nodeRuntime
    files := mergedLauncherFiles inp pkg
    environment := [("NODE_ENV", "production")]
    maxDuration := inp.config.maxDuration
    memory := inp.config.memory }

/-- Long-lived cache header used by the synthesized routes. -/
def cacheHeader : String × String := ("Cache-Control", "max-age=31557600")

/-- Route 1: cache rule for the public-asset path pattern. -/
def cacheRule (pub : String) : Route :=
  { src := some ("/" ++ pub ++ ".+"), headers := some cacheHeader }

/-- Route per discovered static file: cache rule for its exact path. -/
def fileCacheRule (f : String) : Route :=
  { src := some ("/" ++ f), headers := some cacheHeader }

/-- The filesystem-passthrough directive. -/
def fsRoute : Route := { handle := some "filesystem" }

/-- The catch-all rule; note the hard-coded destination `/index`
(`build.ts` line 335). -/
def catchAllRoute : Route := { src := some "/(.*)", dest := some "/index" }

/-- The synthesized route sequence (`build.ts` lines 331-336). -/
def buildRoutes (pub : String) (staticKeys : List String) : List Route :=
  cacheRule pub :: staticKeys.map fileCacheRule ++ [fsRoute, catchAllRoute]

/-- The `output` record (`build.ts` lines 325-330): lambdas, then client
dist files, static files and generated pages, later spreads overriding. -/
def outputOf (inp : BuildInputs) (pkg : PackageJson) : List (String × OutFile) :=
  assign (assign (assign
    [(resolvedLambdaName inp, OutFile.functionPackage (mkLambda inp pkg))]
    ((clientDistFilesOf inp pkg).map (fun kv => (kv.1, OutFile.asset kv.2))))
    ((staticFilesOf inp pkg).map (fun kv => (kv.1, OutFile.asset kv.2))))
    ((generatedPagesFilesOf inp pkg).map (fun kv => (kv.1, OutFile.asset kv.2)))

/-- The successful result of one run. -/
def mkPayload (inp : BuildInputs) (pkg : PackageJson) : RunPayload :=
  { output := outputOf inp pkg
    routes := buildRoutes (resolvedPublicPath inp) (keys (staticFilesOf inp pkg))
    lambdas := [(resolvedLambdaName inp, mkLambda inp pkg)]
    launcherFiles := mergedLauncherFiles inp pkg
    entrypointDir := entrypointDirOf inp
    entrypointPath := entrypointPathOf inp
    modulesPath := NodePath.join2 (entrypointPathOf inp) "node_modules"
    lambdaName := resolvedLambdaName inp
    warnedVersion := semverGt inp.nuxtVersion maxTestedNuxtVersion }

/-- The pipeline orchestrator `build` (`build.ts` lines 31-338).  The
entrypoint is validated first; the manifest is read before the install
stages; the framework version is validated after the production install,
with failure aborting before `.npmrc` cleanup and artifact collection. -/
def build (inp : BuildInputs) : BuildRun :=
  if validEntrypoint inp.entrypoint = false then
    { result := Except.error BuildError.invalidEntrypoint
      trace := [Event.prepareStart]
      disk := inp.disk0 }
  else
    match manifestOf inp.disk0 with
    | none =>
      { result := Except.error BuildError.manifestNotFound
        trace := [Event.prepareStart]
        disk := inp.disk0 }
    | some pkg =>
      if semverGte inp.nuxtVersion minNuxtVersion then
        { result := Except.ok (mkPayload inp pkg)
          trace := okTrace inp pkg
          disk := finalDisk inp pkg }
      else
        { result := Except.error (BuildError.unsupportedFrameworkVersion inp.nuxtVersion)
          trace := preVersionTrace inp pkg
          disk := diskAfterPrune inp pkg }

theorem mem_keys_iff {α : Type} (m : List (String × α)) (k : String) :
    k ∈ keys m ↔ ∃ v, (k, v) ∈ m := by
  constructor
  · intro h
    rcases List.mem_map.mp h with ⟨⟨a, b⟩, hm, hfst⟩
    exact ⟨b, by simpa [← hfst] using hm⟩
  · rintro ⟨v, hv⟩
    exact List.mem_map.mpr ⟨(k, v), hv, rfl⟩

theorem lookupA_append {α : Type} (a b : List (String × α)) (k : String) :
    lookupA (a ++ b) k =
      match lookupA a k with
      | some v => some v
      | none => lookupA b k := by
  induction a with
  | nil => simp [lookupA]
  | cons kv rest ih =>
    by_cases hk : k = kv.1
    · simp [lookupA, hk]
    · simp [lookupA, hk, ih]

theorem lookupA_filter_self {α : Type} (d : List (String × α)) (k : String) :
    lookupA (d.filter (fun kv => kv.1 != k)) k = none := by
  induction d with
  | nil => simp [lookupA]
  | cons kv rest ih =>
    by_cases hk : kv.1 = k
    · simp [List.filter_cons, hk, ih]
    · simp [List.filter_cons, bne_iff_ne, hk, lookupA, Ne.symm hk, ih]

theorem lookupA_filter_ne {α : Type} (d : List (String × α)) (k k0 : String)
    (h : k ≠ k0) :
    lookupA (d.filter (fun kv => kv.1 != k0)) k = lookupA d k := by
  induction d with
  | nil => simp
  | cons kv rest ih =>
    by_cases h0 : kv.1 = k0
    · simp [List.filter_cons, h0, lookupA, h, ih]
    · by_cases hk : k = kv.1
      · simp [List.filter_cons, bne_iff_ne, h0, lookupA, hk]
      · simp [List.filter_cons, bne_iff_ne, h0, lookupA, hk, ih]

theorem lookupA_upsert_self {α : Type} (m : List (String × α)) (k : String) (v : α) :
    lookupA (upsert m k v) k = some v := by
  unfold upsert
  rw [lookupA_append, lookupA_filter_self]
  simp [lookupA]

theorem lookupA_upsert_ne {α : Type} (m : List (String × α)) (k k2 : String) (v : α)
    (h : k ≠ k2) :
    lookupA (upsert m k2 v) k = lookupA m k := by
  unfold upsert
  rw [lookupA_append, lookupA_filter_ne m k k2 h]
  cases hm : lookupA m k with
  | some w => rfl
  | none => simp [lookupA, h]

theorem lookupA_removeDisk_self (d : Disk) (k : String) :
    lookupA (removeDisk d k) k = none :=
  lookupA_filter_self d k

theorem lookupA_removeDisk_ne (d : Disk) (k k0 : String) (h : k ≠ k0) :
    lookupA (removeDisk d k0) k = lookupA d k :=
  lookupA_filter_ne d k k0 h

theorem mem_upsert_val {α : Type} (m : List (String × α)) (k : String) (v w : α)
    (h : (k, w) ∈ upsert m k v) : w = v := by
  unfold upsert at h
  rcases List.mem_append.mp h with hf | hl
  · have := List.of_mem_filter hf
    simp at this
  · simpa using hl

theorem mem_upsert_of_mem_ne {α : Type} (m : List (String × α)) (k2 : String) (v : α)
    (kv : String × α) (h : kv ∈ m) (hne : kv.1 ≠ k2) : kv ∈ upsert m k2 v := by
  unfold upsert
  exact List.mem_append.mpr (Or.inl (List.mem_filter.mpr ⟨h, by simpa using hne⟩))

theorem mem_upsert_cases {α : Type} (m : List (String × α)) (k2 : String) (v : α)
    (kv : String × α) (h : kv ∈ upsert m k2 v) : kv ∈ m ∨ kv = (k2, v) := by
  unfold upsert at h
  rcases List.mem_append.mp h with hf | hl
  · exact Or.inl (List.mem_of_mem_filter hf)
  · exact Or.inr (by simpa using hl)

theorem mem_keys_upsert_self {α : Type} (m : List (String × α)) (k : String) (v : α) :
    k ∈ keys (upsert m k v) :=
  (mem_keys_iff _ _).mpr ⟨v, by unfold upsert; exact List.mem_append.mpr (Or.inr (by simp))⟩

theorem mem_keys_upsert_of_mem {α : Type} (m : List (String × α)) (k k2 : String) (v : α)
    (h : k ∈ keys m) : k ∈ keys (upsert m k2 v) := by
  by_cases hk : k = k2
  · rw [hk]; exact mem_keys_upsert_self m k2 v
  · rcases (mem_keys_iff _ _).mp h with ⟨w, hw⟩
    exact (mem_keys_iff _ _).mpr ⟨w, mem_upsert_of_mem_ne m k2 v (k, w) hw hk⟩

theorem mem_keys_upsert_cases {α : Type} (m : List (String × α)) (k k2 : String) (v : α)
    (h : k ∈ keys (upsert m k2 v)) : k ∈ keys m ∨ k = k2 := by
  rcases (mem_keys_iff _ _).mp h with ⟨w, hw⟩
  rcases mem_upsert_cases m k2 v (k, w) hw with hm | he
  · exact Or.inl ((mem_keys_iff _ _).mpr ⟨w, hm⟩)
  · exact Or.inr (congrArg Prod.fst he)

theorem mem_keys_assign_left {α : Type} (m adds : List (String × α)) (k : String)
    (h : k ∈ keys m) : k ∈ keys (assign m adds) := by
  induction adds generalizing m with
  | nil => exact h
  | cons kv rest ih => exact ih (upsert m kv.1 kv.2) (mem_keys_upsert_of_mem m k kv.1 kv.2 h)

theorem mem_keys_assign_right {α : Type} (m adds : List (String × α)) (k : String)
    (h : k ∈ keys adds) : k ∈ keys (assign m adds) := by
  induction adds generalizing m with
  | nil => simp [keys] at h
  | cons kv rest ih =>
    rcases (mem_keys_iff _ _).mp h with ⟨w, hw⟩
    rcases List.mem_cons.mp hw with he | hr
    · have hk1 : kv.1 = k := (congrArg Prod.fst he).symm
      have hku : k ∈ keys (upsert m kv.1 kv.2) := by
        rw [hk1]; exact mem_keys_upsert_self m k kv.2
      exact mem_keys_assign_left (upsert m kv.1 kv.2) rest k hku
    · exact ih (upsert m kv.1 kv.2) ((mem_keys_iff _ _).mpr ⟨w, hr⟩)

theorem mem_keys_assign_cases {α : Type} (m adds : List (String × α)) (k : String)
    (h : k ∈ keys (assign m adds)) : k ∈ keys m ∨ k ∈ keys adds := by
  induction adds generalizing m with
  | nil => exact Or.inl h
  | cons kv rest ih =>
    rcases ih (upsert m kv.1 kv.2) h with hu | hr
    · rcases mem_keys_upsert_cases m k kv.1 kv.2 hu with hm | he
      · exact Or.inl hm
      · exact Or.inr (by simp [keys, he])
    · exact Or.inr (by simp [keys] at hr ⊢; exact Or.inr hr)

theorem lookupA_assign_not_mem {α : Type} (m adds : List (String × α)) (k : String)
    (h : k ∉ keys adds) : lookupA (assign m adds) k = lookupA m k := by
  induction adds generalizing m with
  | nil => rfl
  | cons kv rest ih =>
    have hk : k ≠ kv.1 := by
      intro he; exact h (by simp [keys, he])
    have hr : k ∉ keys rest := by
      intro hmem; exact h (by simp [keys] at hmem ⊢; exact Or.inr hmem)
    rw [show assign m (kv :: rest) = assign (upsert m kv.1 kv.2) rest from rfl,
      ih (upsert m kv.1 kv.2) hr, lookupA_upsert_ne m k kv.1 kv.2 hk]

theorem lookupA_assign_unique {α : Type} (m adds : List (String × α)) (k : String) (v : α)
    (hmem : (k, v) ∈ adds) (huniq : ∀ w, (k, w) ∈ adds → w = v) :
    lookupA (assign m adds) k = some v := by
  induction adds generalizing m with
  | nil => simp at hmem
  | cons kv rest ih =>
    by_cases hk : k ∈ keys rest
    · rcases (mem_keys_iff _ _).mp hk with ⟨w, hw⟩
      have hwv : w = v := huniq w (List.mem_cons_of_mem kv hw)
      subst hwv
      exact ih (upsert m kv.1 kv.2) hw (fun w2 hw2 => huniq w2 (List.mem_cons_of_mem kv hw2))
    · rcases List.mem_cons.mp hmem with he | hr
      · rw [show assign m (kv :: rest) = assign (upsert m kv.1 kv.2) rest from rfl,
          lookupA_assign_not_mem (upsert m kv.1 kv.2) rest k hk, ← he,
          lookupA_upsert_self]
      · exact absurd ((mem_keys_iff _ _).mpr ⟨v, hr⟩) hk

theorem mem_globIn_root (d : Disk) (pat : String) (kv : String × FileContent)
    (h : kv ∈ globIn d "." pat) : kv ∈ d ∧ globMatch pat kv.1 = true := by
  unfold globIn at h
  simp only [if_pos rfl] at h
  rcases List.mem_filterMap.mp h with ⟨kv2, hkv2, hsome⟩
  by_cases hm : globMatch pat kv2.1 = true
  · rw [if_pos hm] at hsome
    cases hsome
    exact ⟨hkv2, hm⟩
  · rw [if_neg hm] at hsome
    cases hsome

theorem mem_globIn_root_of (d : Disk) (pat : String) (kv : String × FileContent)
    (hd : kv ∈ d) (hm : globMatch pat kv.1 = true) : kv ∈ globIn d "." pat := by
  unfold globIn
  simp only [if_pos rfl]
  exact List.mem_filterMap.mpr ⟨kv, hd, by rw [if_pos hm]⟩

theorem lookupA_mem {α : Type} (d : List (String × α)) (k : String) (v : α)
    (h : lookupA d k = some v) : (k, v) ∈ d := by
  induction d with
  | nil => simp [lookupA] at h
  | cons kv rest ih =>
    by_cases hk : k = kv.1
    · rw [show kv = (kv.1, kv.2) from rfl] at h ⊢
      simp only [lookupA, if_pos hk] at h
      cases h
      simp [hk]
    · rw [show kv = (kv.1, kv.2) from rfl] at h
      simp only [lookupA, if_neg hk] at h
      exact List.mem_cons_of_mem kv (ih h)

theorem semverGte_iff_not_lt (a b : SemVer) :
    semverGte a b = true ↔ semverLt a b = false := by
  unfold semverGte
  cases semverLt a b <;> simp

theorem semverGt_max_gte_min (v : SemVer)
    (h : semverGt v maxTestedNuxtVersion = true) :
    semverGte v minNuxtVersion = true := by
  cases hlt : semverLt v minNuxtVersion with
  | false => unfold semverGte; rw [hlt]; rfl
  | true =>
    exfalso
    unfold semverGt semverLt maxTestedNuxtVersion at h
    unfold semverLt minNuxtVersion at hlt
    simp only [Bool.or_eq_true, Bool.and_eq_true, decide_eq_true_eq] at h hlt
    omega

/-- Characterization of a successful run. -/
theorem build_ok_run (inp : BuildInputs) (pkg : PackageJson)
    (hv : validEntrypoint inp.entrypoint = true)
    (hm : manifestOf inp.disk0 = some pkg)
    (hver : semverGte inp.nuxtVersion minNuxtVersion = true) :
    build inp =
      { result := Except.ok (mkPayload inp pkg)
        trace := okTrace inp pkg
        disk := finalDisk inp pkg } := by
  unfold build
  rw [hm, hv]
  simp [hver]

/-- Characterization of a run aborted by the version validation. -/
theorem build_version_err_run (inp : BuildInputs) (pkg : PackageJson)
    (hv : validEntrypoint inp.entrypoint = true)
    (hm : manifestOf inp.disk0 = some pkg)
    (hver : semverGte inp.nuxtVersion minNuxtVersion = false) :
    build inp =
      { result := Except.error (BuildError.unsupportedFrameworkVersion inp.nuxtVersion)
        trace := preVersionTrace inp pkg
        disk := diskAfterPrune inp pkg } := by
  unfold build
  rw [hm, hv]
  simp [hver]

/-- Characterization of a run aborted by the manifest read. -/
theorem build_manifest_err_run (inp : BuildInputs)
    (hv : validEntrypoint inp.entrypoint = true)
    (hm : manifestOf inp.disk0 = none) :
    build inp =
      { result := Except.error BuildError.manifestNotFound
        trace := [Event.prepareStart]
        disk := inp.disk0 } := by
  unfold build
  rw [hm, hv]
  simp

/-- Inversion: a successful result pins down every branch condition. -/
theorem build_ok_cases (inp : BuildInputs) (p : RunPayload)
    (h : (build inp).result = Except.ok p) :
    validEntrypoint inp.entrypoint = true ∧
    ∃ pkg, manifestOf inp.disk0 = some pkg ∧
      semverGte inp.nuxtVersion minNuxtVersion = true ∧
      p = mkPayload inp pkg := by
  unfold build at h
  split at h
  · simp at h
  · rename_i hvf
    have hv : validEntrypoint inp.entrypoint = true := by
      cases hval : validEntrypoint inp.entrypoint
      · exact absurd hval hvf
      · rfl
    refine ⟨hv, ?_⟩
    split at h
    · simp at h
    · rename_i pkg hm
      split at h
      · rename_i hver
        exact ⟨pkg, hm, hver, (Except.ok.inj h).symm⟩
      · simp at h

theorem get_append_pair {α : Type} (l : List α) (x y : α) :
    (l ++ [x, y]).get? l.length = some x ∧
    (l ++ [x, y]).get? (l.length + 1) = some y := by
  induction l with
  | nil => exact ⟨rfl, rfl⟩
  | cons a rest ih => simpa using ih

theorem buildRoutes_shape (pub : String) (staticKeys : List String) :
    (buildRoutes pub staticKeys).get? (staticKeys.length + 1) = some fsRoute ∧
    (buildRoutes pub staticKeys).get? (staticKeys.length + 2) = some catchAllRoute ∧
    (buildRoutes pub staticKeys).length = staticKeys.length + 3 := by
  have h := get_append_pair (staticKeys.map fileCacheRule) fsRoute catchAllRoute
  unfold buildRoutes
  refine ⟨?_, ?_, ?_⟩
  · have := h.1
    simp only [List.length_map] at this
    simpa using this
  · have := h.2
    simp only [List.length_map] at this
    simpa using this
  · simp

/-- A concrete example manifest: a project depending on nuxt plus one
extra dependency, one devDependency and a `now-build` script. -/
def exManifest : PackageJson :=
  { name := "demo"
    scripts := ["now-build"]
    dependencies := [("nuxt", "2.14.12"), ("lodash", "4.17.0")]
    devDependencies := [("jest", "26.6.3")] }

/-- A concrete successful pipeline invocation: registry token set, one
extra include file, a static favicon, default nuxt configuration, and the
compiler writing client/server dist output and production node modules. -/
def exInp : BuildInputs :=
  { entrypoint := "apps/www/package.json"
    workPath := "/vercel/workpath0"
    config := { includeFiles := IncludeFilesCfg.many ["secrets.json"] }
    nuxtConfigFile := {}
    npmAuthToken := some "tok123"
    disk0 := [("package.json", FileContent.manifest exManifest),
              ("secrets.json", FileContent.blob "s3cr3t"),
              ("nuxt.config.js", FileContent.blob "cfg"),
              ("static/favicon.ico", FileContent.blob "icon")]
    nuxtBuildOutputs := [(".nuxt/dist/client/app.js", FileContent.blob "c"),
                         (".nuxt/dist/server/server.js", FileContent.blob "s"),
                         ("node_modules_prod/nuxt/package.json", FileContent.blob "n")]
    nuxtVersion := ⟨2, 14, 12⟩ }

/-- Placeholder payload for total projection out of `Except`. -/
def emptyPayload : RunPayload :=
  { output := []
    routes := []
    lambdas := []
    launcherFiles := []
    entrypointDir := ""
    entrypointPath := ""
    modulesPath := ""
    lambdaName := ""
    warnedVersion := false }

/-- The payload of the example run. -/
def exPayload : RunPayload :=
  match (build exInp).result with
  | Except.ok p => p
  | Except.error _ => emptyPayload

/-- The example invocation with `lambdaName: "api"` declared in the nuxt
configuration (spec Scenario B). -/
def exInpApi : BuildInputs :=
  { exInp with nuxtConfigFile := { lambdaName := some "api" } }

/-- The payload of the `lambdaName: "api"` run. -/
def exPayloadApi : RunPayload :=
  match (build exInpApi).result with
  | Except.ok p => p
  | Except.error _ => emptyPayload

/-- The example invocation with resolved framework version 2.3.0
(spec Scenario D). -/
def exInpOld : BuildInputs :=
  { exInp with nuxtVersion := ⟨2, 3, 0⟩ }

/-- The example invocation whose `package.json` exists but cannot be
parsed. -/
def exInpNoManifest : BuildInputs :=
  { exInp with disk0 := [("package.json", FileContent.badManifest),
                         ("nuxt.config.js", FileContent.blob "cfg")] }

/-- C1: the claim says the catch-all route (the last synthesized route)
always routes to the sole function package — `/api` when the framework
configuration declares `lambdaName: "api"`, `/index` by default.  The code
diverges: `build.ts` line 335 hard-codes the catch-all destination
`/index`, so with `lambdaName: "api"` the sole function package is named
`api` while the catch-all still rewrites to `/index`, a destination no
output entry provides.  The default half of the claim holds. -/
theorem claim1_catch_all_divergence :
    (build exInpApi).result = Except.ok exPayloadApi ∧
    exPayloadApi.lambdas.map Prod.fst = ["api"] ∧
    exPayloadApi.routes.getLast? = some catchAllRoute ∧
    catchAllRoute.dest = some "/index" ∧
    "/index" ≠ "/api" ∧
    (build exInp).result = Except.ok exPayload ∧
    exPayload.lambdas.map Prod.fst = ["index"] := by
  decide

/-- C2: for every input and configuration, the synthesized route sequence
is exactly: one cache rule for the public-asset path, one cache rule per
discovered static-asset file, the filesystem-passthrough directive, then
the catch-all rule; in particular the filesystem directive's index is
strictly below the catch-all's. -/
theorem claim2_route_shape_and_order (inp : BuildInputs) (p : RunPayload)
    (h : (build inp).result = Except.ok p) :
    ∃ pkg, manifestOf inp.disk0 = some pkg ∧
      p.routes = cacheRule (resolvedPublicPath inp) ::
        (keys (staticFilesOf inp pkg)).map fileCacheRule ++ [fsRoute, catchAllRoute] ∧
      p.routes.get? ((keys (staticFilesOf inp pkg)).length + 1) = some fsRoute ∧
      p.routes.get? ((keys (staticFilesOf inp pkg)).length + 2) = some catchAllRoute ∧
      (keys (staticFilesOf inp pkg)).length + 1 < (keys (staticFilesOf inp pkg)).length + 2 := by
  rcases build_ok_cases inp p h with ⟨hv, pkg, hm, hver, hp⟩
  subst hp
  refine ⟨pkg, hm, rfl, ?_, ?_, by omega⟩
  · exact (buildRoutes_shape (resolvedPublicPath inp) (keys (staticFilesOf inp pkg))).1
  · exact (buildRoutes_shape (resolvedPublicPath inp) (keys (staticFilesOf inp pkg))).2.1

/-- Witness for C2 at the concrete example run. -/
theorem claim2_route_shape_and_order_witness :
    ∃ pkg, manifestOf exInp.disk0 = some pkg ∧
      exPayload.routes = cacheRule (resolvedPublicPath exInp) ::
        (keys (staticFilesOf exInp pkg)).map fileCacheRule ++ [fsRoute, catchAllRoute] ∧
      exPayload.routes.get? ((keys (staticFilesOf exInp pkg)).length + 1) = some fsRoute ∧
      exPayload.routes.get? ((keys (staticFilesOf exInp pkg)).length + 2) = some catchAllRoute ∧
      (keys (staticFilesOf exInp pkg)).length + 1 < (keys (staticFilesOf exInp pkg)).length + 2 :=
  claim2_route_shape_and_order exInp exPayload (by decide)

/-- C3: for every run on a valid entrypoint, the resolved entry directory
is the entrypoint's parent directory (`path.dirname`), the entry path is
the workspace root joined with the entry directory, and the module-install
directory is the entry path joined with `node_modules`. -/
theorem claim3_path_resolver (inp : BuildInputs) (p : RunPayload)
    (h : (build inp).result = Except.ok p) :
    validEntrypoint inp.entrypoint = true ∧
    p.entrypointDir = NodePath.dirname inp.entrypoint ∧
    p.entrypointPath = NodePath.join2 inp.workPath p.entrypointDir ∧
    p.modulesPath = NodePath.join2 p.entrypointPath "node_modules" := by
  rcases build_ok_cases inp p h with ⟨hv, pkg, hm, hver, hp⟩
  subst hp
  exact ⟨hv, rfl, rfl, rfl⟩

/-- Witness for C3 at the concrete example run. -/
theorem claim3_path_resolver_witness :
    validEntrypoint exInp.entrypoint = true ∧
    exPayload.entrypointDir = NodePath.dirname exInp.entrypoint ∧
    exPayload.entrypointPath = NodePath.join2 exInp.workPath exPayload.entrypointDir ∧
    exPayload.modulesPath = NodePath.join2 exPayload.entrypointPath "node_modules" :=
  claim3_path_resolver exInp exPayload (by decide)

/-- C9: every successful run produces exactly one function package: the
`lambdas` record is the singleton binding of the resolved lambda name. -/
theorem claim9_exactly_one_lambda (inp : BuildInputs) (p : RunPayload)
    (h : (build inp).result = Except.ok p) :
    ∃ pkg, manifestOf inp.disk0 = some pkg ∧
      p.lambdas = [(resolvedLambdaName inp, mkLambda inp pkg)] ∧
      keys p.lambdas = [resolvedLambdaName inp] ∧
      p.lambdas.length = 1 := by
  rcases build_ok_cases inp p h with ⟨hv, pkg, hm, hver, hp⟩
  subst hp
  exact ⟨pkg, hm, rfl, rfl, rfl⟩

/-- Witness for C9 at the concrete example run. -/
theorem claim9_exactly_one_lambda_witness :
    ∃ pkg, manifestOf exInp.disk0 = some pkg ∧
      exPayload.lambdas = [(resolvedLambdaName exInp, mkLambda exInp pkg)] ∧
      keys exPayload.lambdas = [resolvedLambdaName exInp] ∧
      exPayload.lambdas.length = 1 :=
  claim9_exactly_one_lambda exInp exPayload (by decide)

/-- The example invocation with resolved framework version 3.1.0 (above
the tested ceiling). -/
def exInpNew : BuildInputs :=
  { exInp with nuxtVersion := ⟨3, 1, 0⟩ }

/-- C4: once the manifest is read, packaging fails with the
unsupported-framework-version error exactly when the resolved framework
version is below the minimum supported 2.4.0; above the tested ceiling
3.0.0 the run succeeds and the trace carries the non-fatal compatibility
warning. -/
theorem claim4_version_gate (inp : BuildInputs) (pkg : PackageJson)
    (hv : validEntrypoint inp.entrypoint = true)
    (hm : manifestOf inp.disk0 = some pkg) :
    ((build inp).result =
        Except.error (BuildError.unsupportedFrameworkVersion inp.nuxtVersion)
      ↔ semverLt inp.nuxtVersion minNuxtVersion = true) ∧
    (semverGt inp.nuxtVersion maxTestedNuxtVersion = true →
      (build inp).result = Except.ok (mkPayload inp pkg) ∧
      Event.warnVersion ∈ (build inp).trace) := by
  cases hver : semverGte inp.nuxtVersion minNuxtVersion with
  | true =>
    rw [build_ok_run inp pkg hv hm hver]
    constructor
    · constructor
      · intro hres; exact absurd hres (by simp)
      · intro hlt
        rw [semverGte_iff_not_lt] at hver
        rw [hver] at hlt
        cases hlt
    · intro hgt
      refine ⟨rfl, ?_⟩
      simp [okTrace, hgt]
  | false =>
    rw [build_version_err_run inp pkg hv hm hver]
    constructor
    · constructor
      · intro _
        unfold semverGte at hver
        cases hlt : semverLt inp.nuxtVersion minNuxtVersion
        · rw [hlt] at hver; cases hver
        · rfl
      · intro _; rfl
    · intro hgt
      exact absurd (semverGt_max_gte_min inp.nuxtVersion hgt) (by rw [hver]; simp)

/-- Witness for C4: version 2.3.0 fails (Scenario D), version 3.1.0
succeeds with the warning. -/
theorem claim4_version_gate_witness :
    ((((build exInpOld).result =
        Except.error (BuildError.unsupportedFrameworkVersion exInpOld.nuxtVersion))
      ↔ semverLt exInpOld.nuxtVersion minNuxtVersion = true) ∧
     (semverGt exInpOld.nuxtVersion maxTestedNuxtVersion = true →
       (build exInpOld).result = Except.ok (mkPayload exInpOld exManifest) ∧
       Event.warnVersion ∈ (build exInpOld).trace)) ∧
    ((((build exInpNew).result =
        Except.error (BuildError.unsupportedFrameworkVersion exInpNew.nuxtVersion))
      ↔ semverLt exInpNew.nuxtVersion minNuxtVersion = true) ∧
     (semverGt exInpNew.nuxtVersion maxTestedNuxtVersion = true →
       (build exInpNew).result = Except.ok (mkPayload exInpNew exManifest) ∧
       Event.warnVersion ∈ (build exInpNew).trace)) :=
  ⟨claim4_version_gate exInpOld exManifest (by decide) (by decide),
   claim4_version_gate exInpNew exManifest (by decide) (by decide)⟩

/-- C5: when the entry directory's manifest is absent or unparsable the
run fails with the manifest-not-found error, and the trace shows neither
install stage ever started. -/
theorem claim5_manifest_failure (inp : BuildInputs)
    (hv : validEntrypoint inp.entrypoint = true)
    (hm : manifestOf inp.disk0 = none) :
    (build inp).result = Except.error BuildError.manifestNotFound ∧
    Event.installDevStart ∉ (build inp).trace ∧
    Event.installProdStart ∉ (build inp).trace := by
  rw [build_manifest_err_run inp hv hm]
  refine ⟨rfl, ?_, ?_⟩ <;> simp

/-- Witness for C5 at the example whose `package.json` is unparsable. -/
theorem claim5_manifest_failure_witness :
    (build exInpNoManifest).result = Except.error BuildError.manifestNotFound ∧
    Event.installDevStart ∉ (build exInpNoManifest).trace ∧
    Event.installProdStart ∉ (build exInpNoManifest).trace :=
  claim5_manifest_failure exInpNoManifest (by decide) (by decide)

/-- C7: in every run that reads a manifest, the destructive prune of the
manifest happens strictly after the dev-dependency install completed and
strictly before the production install began. -/
theorem claim7_prune_between_installs (inp : BuildInputs) (pkg : PackageJson)
    (hv : validEntrypoint inp.entrypoint = true)
    (hm : manifestOf inp.disk0 = some pkg) :
    Event.installDevDone ∈ (build inp).trace ∧
    Event.prunePkg ∈ (build inp).trace ∧
    Event.installProdStart ∈ (build inp).trace ∧
    (build inp).trace.indexOf Event.installDevDone <
      (build inp).trace.indexOf Event.prunePkg ∧
    (build inp).trace.indexOf Event.prunePkg <
      (build inp).trace.indexOf Event.installProdStart := by
  cases hver : semverGte inp.nuxtVersion minNuxtVersion with
  | true =>
    rw [build_ok_run inp pkg hv hm hver]
    cases h1 : envTruthy inp.npmAuthToken <;>
    cases h2 : pkg.scripts.contains "now-build" <;>
    cases h3 : inp.config.generateStaticRoutes <;>
    cases h4 : semverGt inp.nuxtVersion maxTestedNuxtVersion <;>
      simp only [okTrace, preVersionTrace, h1, h2, h3, h4] <;> decide
  | false =>
    rw [build_version_err_run inp pkg hv hm hver]
    cases h1 : envTruthy inp.npmAuthToken <;>
    cases h2 : pkg.scripts.contains "now-build" <;>
    cases h3 : inp.config.generateStaticRoutes <;>
      simp only [preVersionTrace, h1, h2, h3] <;> decide

/-- Witness for C7 at the concrete example run. -/
theorem claim7_prune_between_installs_witness :
    Event.installDevDone ∈ (build exInp).trace ∧
    Event.prunePkg ∈ (build exInp).trace ∧
    Event.installProdStart ∈ (build exInp).trace ∧
    (build exInp).trace.indexOf Event.installDevDone <
      (build exInp).trace.indexOf Event.prunePkg ∧
    (build exInp).trace.indexOf Event.prunePkg <
      (build exInp).trace.indexOf Event.installProdStart :=
  claim7_prune_between_installs exInp exManifest (by decide) (by decide)

/-- C8: on a successful run with the registry token set, `.npmrc` is
written before the dev install starts, unlinked after the production
install completes, and is absent from the final workspace; without the
token it is neither written nor unlinked. -/
theorem claim8_npmrc_lifecycle (inp : BuildInputs) (p : RunPayload)
    (h : (build inp).result = Except.ok p) :
    (envTruthy inp.npmAuthToken = true →
      Event.writeNpmrc ∈ (build inp).trace ∧
      (build inp).trace.indexOf Event.writeNpmrc <
        (build inp).trace.indexOf Event.installDevStart ∧
      Event.unlinkNpmrc ∈ (build inp).trace ∧
      (build inp).trace.indexOf Event.installProdDone <
        (build inp).trace.indexOf Event.unlinkNpmrc ∧
      lookupA (build inp).disk ".npmrc" = none) ∧
    (envTruthy inp.npmAuthToken = false →
      Event.writeNpmrc ∉ (build inp).trace ∧
      Event.unlinkNpmrc ∉ (build inp).trace) := by
  rcases build_ok_cases inp p h with ⟨hv, pkg, hm, hver, hp⟩
  rw [build_ok_run inp pkg hv hm hver]
  constructor
  · intro h1
    have hd : lookupA (finalDisk inp pkg) ".npmrc" = none := by
      unfold finalDisk
      simp only [h1, if_true]
      exact lookupA_removeDisk_self (diskAfterPrune inp pkg) ".npmrc"
    refine ⟨?_, ?_, ?_, ?_, hd⟩ <;>
      (cases h2 : pkg.scripts.contains "now-build" <;>
       cases h3 : inp.config.generateStaticRoutes <;>
       cases h4 : semverGt inp.nuxtVersion maxTestedNuxtVersion <;>
         simp only [okTrace, preVersionTrace, h1, h2, h3, h4] <;> decide)
  · intro h1
    cases h2 : pkg.scripts.contains "now-build" <;>
    cases h3 : inp.config.generateStaticRoutes <;>
    cases h4 : semverGt inp.nuxtVersion maxTestedNuxtVersion <;>
      simp only [okTrace, preVersionTrace, h1, h2, h3, h4] <;> decide

/-- Witness for C8 at the concrete example run (token set). -/
theorem claim8_npmrc_lifecycle_witness :
    (envTruthy exInp.npmAuthToken = true →
      Event.writeNpmrc ∈ (build exInp).trace ∧
      (build exInp).trace.indexOf Event.writeNpmrc <
        (build exInp).trace.indexOf Event.installDevStart ∧
      Event.unlinkNpmrc ∈ (build exInp).trace ∧
      (build exInp).trace.indexOf Event.installProdDone <
        (build exInp).trace.indexOf Event.unlinkNpmrc ∧
      lookupA (build exInp).disk ".npmrc" = none) ∧
    (envTruthy exInp.npmAuthToken = false →
      Event.writeNpmrc ∉ (build exInp).trace ∧
      Event.unlinkNpmrc ∉ (build exInp).trace) :=
  claim8_npmrc_lifecycle exInp exPayload (by decide)

theorem mem_keys_foldl_assign_of_mem {α : Type} (g : String → List (String × α))
    (pats : List String) (m0 : List (String × α)) (f : String)
    (hf : f ∈ keys m0) :
    f ∈ keys (pats.foldl (fun acc pat => assign acc (g pat)) m0) := by
  induction pats generalizing m0 with
  | nil => exact hf
  | cons p0 rest ih => exact ih (assign m0 (g p0)) (mem_keys_assign_left m0 (g p0) f hf)

theorem mem_keys_foldl_assign {α : Type} (g : String → List (String × α))
    (pats : List String) (m0 : List (String × α)) (q f : String)
    (hq : q ∈ pats) (hf : f ∈ keys (g q)) :
    f ∈ keys (pats.foldl (fun acc pat => assign acc (g pat)) m0) := by
  induction pats generalizing m0 with
  | nil => cases hq
  | cons p0 rest ih =>
    rcases List.mem_cons.mp hq with he | hr
    · have hin : f ∈ keys (assign m0 (g p0)) := by
        rw [he] at hf
        exact mem_keys_assign_right m0 (g p0) f hf
      exact mem_keys_foldl_assign_of_mem g rest (assign m0 (g p0)) f hin
    · exact ih (assign m0 (g p0)) hr

theorem mem_keys_foldl_assign_cases {α : Type} (g : String → List (String × α))
    (pats : List String) (m0 : List (String × α)) (f : String)
    (hf : f ∈ keys (pats.foldl (fun acc pat => assign acc (g pat)) m0)) :
    f ∈ keys m0 ∨ ∃ q, q ∈ pats ∧ f ∈ keys (g q) := by
  induction pats generalizing m0 with
  | nil => exact Or.inl hf
  | cons p0 rest ih =>
    rcases ih (assign m0 (g p0)) hf with hacc | ⟨q, hq, hfq⟩
    · rcases mem_keys_assign_cases m0 (g p0) f hacc with hm | hg
      · exact Or.inl hm
      · exact Or.inr ⟨p0, List.mem_cons_self p0 rest, hg⟩
    · exact Or.inr ⟨q, List.mem_cons_of_mem p0 hq, hfq⟩

/-- After the prune, the workspace's `package.json` holds the pruned
production manifest, and `.npmrc` cleanup does not disturb it. -/
theorem finalDisk_manifest (inp : BuildInputs) (pkg : PackageJson) :
    lookupA (finalDisk inp pkg) "package.json" =
      some (FileContent.manifest (preparePkgForProd pkg).1) := by
  have hp : lookupA (diskAfterPrune inp pkg) "package.json" =
      some (FileContent.manifest (preparePkgForProd pkg).1) := by
    unfold diskAfterPrune writeDisk
    exact lookupA_upsert_self (diskAfterGenerate inp) "package.json" _
  unfold finalDisk
  cases h1 : envTruthy inp.npmAuthToken
  · simpa [h1] using hp
  · simp only [h1, if_true]
    rw [lookupA_removeDisk_ne (diskAfterPrune inp pkg) "package.json" ".npmrc" (by decide)]
    exact hp

/-- Every `package.json` entry of the final workspace holds the pruned
manifest (the prune replaced all previous entries). -/
theorem finalDisk_pkg_entries (inp : BuildInputs) (pkg : PackageJson) (w : FileContent)
    (h : ("package.json", w) ∈ finalDisk inp pkg) :
    w = FileContent.manifest (preparePkgForProd pkg).1 := by
  have h2 : ("package.json", w) ∈ diskAfterPrune inp pkg := by
    unfold finalDisk at h
    cases h1 : envTruthy inp.npmAuthToken
    · simpa [h1] using h
    · rw [h1] at h
      simp only [if_true] at h
      exact List.mem_of_mem_filter h
  unfold diskAfterPrune writeDisk at h2
  exact mem_upsert_val (diskAfterGenerate inp) "package.json" _ w h2

/-- The merged launcher file set binds `package.json` to the pruned
production manifest: its pattern is globbed last, and the final workspace
holds only the pruned manifest under that path. -/
theorem mergedLauncherFiles_manifest (inp : BuildInputs) (pkg : PackageJson) :
    lookupA (mergedLauncherFiles inp pkg) "package.json" =
      some (FileContent.manifest (preparePkgForProd pkg).1) := by
  unfold mergedLauncherFiles serverFilesPatterns
  rw [List.foldl_append]
  simp only [List.foldl_cons, List.foldl_nil]
  apply lookupA_assign_unique
  · exact mem_globIn_root_of (finalDisk inp pkg) "package.json" _
      (lookupA_mem (finalDisk inp pkg) "package.json" _ (finalDisk_manifest inp pkg))
      (show globMatch "package.json" "package.json" = true by decide)
  · intro w hw
    rcases mem_globIn_root (finalDisk inp pkg) "package.json" ("package.json", w) hw
      with ⟨hd, _⟩
    exact finalDisk_pkg_entries inp pkg w hd

/-- C6: the merged launcher file set contains every file matched by each
configured include/server pattern (globbed individually against the entry
path, kept under its original logical path); `package.json` is always in
the pattern list and in the merged set; and nothing else enters the
merged set — a pattern matching no files contributes none, without
error (the merge is total). -/
theorem claim6_extra_files (inp : BuildInputs) (p : RunPayload) (pat f : String)
    (h : (build inp).result = Except.ok p)
    (hpat : pat ∈ includeFilesList inp.config.includeFiles ∨
      pat ∈ serverFilesList inp.config)
    (hf : f ∈ keys (globIn (build inp).disk "." pat)) :
    ∃ pkg, manifestOf inp.disk0 = some pkg ∧
      f ∈ keys p.launcherFiles ∧
      "package.json" ∈ serverFilesPatterns inp.config ∧
      "package.json" ∈ keys p.launcherFiles ∧
      (∀ g, g ∈ keys p.launcherFiles →
        g ∈ keys (launcherBase inp pkg) ∨
        ∃ q, q ∈ serverFilesPatterns inp.config ∧
          g ∈ keys (globIn (finalDisk inp pkg) "." q)) := by
  rcases build_ok_cases inp p h with ⟨hv, pkg, hm, hver, hp⟩
  have hdisk : (build inp).disk = finalDisk inp pkg := by
    rw [build_ok_run inp pkg hv hm hver]
  subst hp
  rw [hdisk] at hf
  have hpat2 : pat ∈ serverFilesPatterns inp.config := by
    unfold serverFilesPatterns
    rcases hpat with hi | hs
    · exact List.mem_append.mpr (Or.inl (List.mem_append.mpr (Or.inl hi)))
    · exact List.mem_append.mpr (Or.inl (List.mem_append.mpr (Or.inr hs)))
  have hpkgpat : "package.json" ∈ serverFilesPatterns inp.config := by
    unfold serverFilesPatterns
    exact List.mem_append.mpr (Or.inr (by simp))
  have hpkgkeys : "package.json" ∈ keys (globIn (finalDisk inp pkg) "." "package.json") :=
    (mem_keys_iff _ _).mpr ⟨FileContent.manifest (preparePkgForProd pkg).1,
      mem_globIn_root_of (finalDisk inp pkg) "package.json" _
        (lookupA_mem (finalDisk inp pkg) "package.json" _ (finalDisk_manifest inp pkg))
        (show globMatch "package.json" "package.json" = true by decide)⟩
  refine ⟨pkg, hm, ?_, hpkgpat, ?_, ?_⟩
  · exact mem_keys_foldl_assign (fun q => globIn (finalDisk inp pkg) "." q)
      (serverFilesPatterns inp.config) (launcherBase inp pkg) pat f hpat2 hf
  · exact mem_keys_foldl_assign (fun q => globIn (finalDisk inp pkg) "." q)
      (serverFilesPatterns inp.config) (launcherBase inp pkg) "package.json"
      "package.json" hpkgpat hpkgkeys
  · intro g hg
    exact mem_keys_foldl_assign_cases (fun q => globIn (finalDisk inp pkg) "." q)
      (serverFilesPatterns inp.config) (launcherBase inp pkg) g hg

/-- Witness for C6: `config.includeFiles = ["secrets.json"]` and the file
exists, so it lands in the merged set under its own path (Scenario C). -/
theorem claim6_extra_files_witness :
    ∃ pkg, manifestOf exInp.disk0 = some pkg ∧
      "secrets.json" ∈ keys exPayload.launcherFiles ∧
      "package.json" ∈ serverFilesPatterns exInp.config ∧
      "package.json" ∈ keys exPayload.launcherFiles ∧
      (∀ g, g ∈ keys exPayload.launcherFiles →
        g ∈ keys (launcherBase exInp pkg) ∨
        ∃ q, q ∈ serverFilesPatterns exInp.config ∧
          g ∈ keys (globIn (finalDisk exInp pkg) "." q)) :=
  claim6_extra_files exInp exPayload "secrets.json" "secrets.json" (by decide)
    (Or.inl (by decide)) (by decide)

/-- C10: the manifest bundled into the function package is the pruned
production manifest rewritten on disk by the prune step, not the original
manifest read at the start of the run. -/
theorem claim10_bundled_manifest_is_pruned (inp : BuildInputs) (p : RunPayload)
    (pkg : PackageJson)
    (h : (build inp).result = Except.ok p)
    (hm : manifestOf inp.disk0 = some pkg) :
    lookupA p.launcherFiles "package.json" =
      some (FileContent.manifest (preparePkgForProd pkg).1) ∧
    ((preparePkgForProd pkg).1 ≠ pkg →
      lookupA p.launcherFiles "package.json" ≠ some (FileContent.manifest pkg)) := by
  rcases build_ok_cases inp p h with ⟨hv, pkg2, hm2, hver, hp⟩
  rw [hm] at hm2
  have he : pkg2 = pkg := (Option.some.inj hm2).symm
  subst he
  subst hp
  have hmain : lookupA (mkPayload inp pkg2).launcherFiles "package.json" =
      some (FileContent.manifest (preparePkgForProd pkg2).1) :=
    mergedLauncherFiles_manifest inp pkg2
  refine ⟨hmain, ?_⟩
  intro hne hcontra
  rw [hmain] at hcontra
  have he2 := Option.some.inj hcontra
  exact hne (by injection he2)

/-- Witness for C10 at the concrete example run (the original manifest
has extra dependencies, so pruned and original differ). -/
theorem claim10_bundled_manifest_is_pruned_witness :
    lookupA exPayload.launcherFiles "package.json" =
      some (FileContent.manifest (preparePkgForProd exManifest).1) ∧
    ((preparePkgForProd exManifest).1 ≠ exManifest →
      lookupA exPayload.launcherFiles "package.json" ≠
        some (FileContent.manifest exManifest)) :=
  claim10_bundled_manifest_is_pruned exInp exPayload exManifest (by decide) (by decide)
